import Mathlib

/-!
Verification of the node-resolver GraphQL federation subgraph service.

The development shallowly embeds the Go source of the service:

* the directive scanner and registry builder (function NewResolver and its
  per-definition loop body, file internal/graphapi/resolver.go),
* single-node resolution (function GetNode, the nodes file),
* batched entity resolution (functions entitiesResolver and
  entityTypeResolver, the entities file).

Modelling conventions:

* A parsed schema document is a list of Definition values: the external
  gqlparser library (out of scope for the spec) turns raw SDL text into
  this shape.  Each Definition carries its name, the names of the
  interfaces it implements, and its directives with raw argument values
  (raw means: string arguments still carry their surrounding quotes, as
  gqlparser Value.String does).
* Go maps are modelled as association lists with first-match lookup and
  update-or-append insert; lookup and overwrite semantics coincide with
  the Go map, and iteration order is never relied upon by the claims.
* gidx.PrefixedID is modelled as a String; its Prefix method takes the
  text before the first hyphen (empty when there is no hyphen).  The
  external codec gidx.Parse is out of scope per the spec.
* graphql.NewSchema compilation (external library) is assumed to succeed;
  NewResolver here therefore models exactly the checks the repository
  performs itself.
* A Go panic inside entitiesResolver (unchecked type assertions) is
  modelled as the Option value none: the call does not return a batch.
* entityTypeResolver panics with a formatted error that the graphql
  library converts to a per-item field error; the model returns
  Except.error with the same message text.
* Schema.IsPossibleType for an interface holds of exactly the object
  types registered in the schema that declare that interface; every
  object passed to it here comes from the prefix map, and all of those
  are registered via GraphTypes, so the relation reduces to membership of
  the interface name in the object declared-interface list.
-/

namespace NodeResolver

/-- A single quote character, used to build error message text. -/
def apos : String := String.mk [Char.ofNat 39]

/-- Association-list lookup modelling a Go map read: first entry whose key
matches, if any. -/
def lookupA {α : Type} (m : List (String × α)) (k : String) : Option α :=
  match m with
  | [] => none
  | kv :: rest => if kv.1 = k then some kv.2 else lookupA rest k

/-- Association-list insert modelling a Go map write: overwrite the entry
for the key when present, append otherwise. -/
def insertA {α : Type} (m : List (String × α)) (k : String) (v : α) : List (String × α) :=
  match m with
  | [] => [(k, v)]
  | kv :: rest => if kv.1 = k then (k, v) :: rest else kv :: insertA rest k v

/-- One directive argument as parsed by gqlparser: name plus the raw value
text (string literals keep their double quotes). -/
structure Argument where
  name : String
  rawValue : String
deriving Repr, DecidableEq

/-- One directive attached to a type definition. -/
structure Directive where
  name : String
  arguments : List Argument
deriving Repr, DecidableEq

/-- One type definition of the parsed schema document: its name, the names
of the interfaces it implements, and its directives. -/
structure Definition where
  name : String
  interfaces : List String
  directives : List Directive
deriving Repr, DecidableEq

/-- gqlparser DirectiveList.ForName: first directive with the given name. -/
def directiveForName (l : List Directive) (n : String) : Option Directive :=
  l.find? (fun d => d.name == n)

/-- gqlparser ArgumentList.ForName: first argument with the given name. -/
def argumentForName (l : List Argument) (n : String) : Option Argument :=
  l.find? (fun a => a.name == n)

/-- Go strings.Trim with a double-quote cutset: drop all leading and
trailing double-quote characters. -/
def trimQuotes (s : String) : String :=
  String.mk (((s.toList.dropWhile (fun c => c = Char.ofNat 34)).reverse.dropWhile
    (fun c => c = Char.ofNat 34)).reverse)

/-- Model of a graphql.Interface built by graphInterfaceFor: identified by
its name (its id field carries no data relevant to the claims). -/
structure GraphInterface where
  name : String
deriving Repr, DecidableEq

/-- Model of a graphql.Object built by graphTypeFor: its type name, the
identifier value it was registered under, and the names of the interfaces
it declares. -/
structure GraphObject where
  name : String
  pfx : String
  interfaceNames : List String
deriving Repr, DecidableEq

/-- Source graphInterfaceFor: construct the interface descriptor for a
name. -/
def graphInterfaceFor (name : String) : GraphInterface :=
  { name := name }

/-- Source graphTypeFor: construct the object descriptor for a type name,
its registered identifier value and its collected interfaces. -/
def graphTypeFor (name : String) (pfx : String) (interfaces : List GraphInterface) : GraphObject :=
  { name := name, pfx := pfx, interfaceNames := interfaces.map (fun i => i.name) }

/-- State threaded through the NewResolver scanning loop: the map from
identifier value to object, the interface map, and the warnings logged so
far. -/
structure ScanState where
  pfxMap : List (String × GraphObject)
  interfaceMap : List (String × GraphInterface)
  warnings : List String
deriving Repr, DecidableEq

/-- Inner loop of NewResolver over obj.Interfaces: look each interface
name up in the interface map, create-and-memoize on first sight, and
collect the interface descriptors in order. -/
def memoizeInterfaces (im : List (String × GraphInterface)) :
    List String → List (String × GraphInterface) × List GraphInterface
  | [] => (im, [])
  | i :: rest =>
    match lookupA im i with
    | some gi =>
      let r := memoizeInterfaces im rest
      (r.1, gi :: r.2)
    | none =>
      let r := memoizeInterfaces (insertA im i (graphInterfaceFor i)) rest
      (r.1, graphInterfaceFor i :: r.2)

/-- Body of the NewResolver loop for one definition: skip definitions with
no interfaces; memoize the interfaces; then warn-and-skip when the
prefixedID directive or its argument is missing, and otherwise register
the constructed object under the quoted-stripped argument value. -/
def stepDef (st : ScanState) (obj : Definition) : ScanState :=
  if obj.interfaces.isEmpty then st
  else
    let mi := memoizeInterfaces st.interfaceMap obj.interfaces
    match directiveForName obj.directives "prefixedID" with
    | none =>
      { st with interfaceMap := mi.1,
                warnings := st.warnings ++ ["missing @prefixedID directive: " ++ obj.name] }
    | some pd =>
      match argumentForName pd.arguments "prefix" with
      | none =>
        { st with interfaceMap := mi.1,
                  warnings := st.warnings ++ ["missing prefix on @prefixedID directive: " ++ obj.name] }
      | some pa =>
        let p := trimQuotes pa.rawValue
        { st with interfaceMap := mi.1,
                  pfxMap := insertA st.pfxMap p (graphTypeFor obj.name p mi.2) }

/-- Scan of the whole document, in document order, from the empty maps. -/
def scanDoc (defs : List Definition) : ScanState :=
  defs.foldl stepDef { pfxMap := [], interfaceMap := [], warnings := [] }

/-- The identifier value a definition registers, if any: present exactly
when the definition has interfaces, the prefixedID directive, and its
argument. -/
def pfxOf (d : Definition) : Option String :=
  if d.interfaces.isEmpty then none
  else
    match directiveForName d.directives "prefixedID" with
    | none => none
    | some pd =>
      match argumentForName pd.arguments "prefix" with
      | none => none
      | some pa => some (trimQuotes pa.rawValue)

/-- The object a definition registers when it registers identifier value
p (names taken directly from the definition). -/
def objFor (d : Definition) (p : String) : GraphObject :=
  { name := d.name, pfx := p, interfaceNames := d.interfaces }

/-- The registry part of a successfully built Resolver. -/
structure Resolver where
  pfxMap : List (String × GraphObject)
  interfaceMap : List (String × GraphInterface)
deriving Repr, DecidableEq

/-- Source Query: building the Query root requires the Node interface to
be present in the interface map and returns it, failing otherwise. -/
def queryRoot (interfaceMap : List (String × GraphInterface)) : Except String GraphInterface :=
  match lookupA interfaceMap "Node" with
  | some nodeInt => Except.ok nodeInt
  | none => Except.error "interface for Node missing from schema"

/-- Source NewResolver on an already-parsed document: scan all
definitions, fail when the registry is empty, fail when the Query root
cannot be built, otherwise return the resolver (external schema
compilation assumed successful). -/
def NewResolver (defs : List Definition) : Except String Resolver :=
  let st := scanDoc defs
  if st.pfxMap.isEmpty then Except.error "schema has no valid objet types"
  else
    match queryRoot st.interfaceMap with
    | Except.error e => Except.error e
    | Except.ok _ => Except.ok { pfxMap := st.pfxMap, interfaceMap := st.interfaceMap }

/-- Characters of an identifier before its first hyphen. -/
def pfxChars : List Char → List Char
  | [] => []
  | c :: rest => if c = Char.ofNat 45 then [] else c :: pfxChars rest

/-- gidx PrefixedID.Prefix: the text before the first hyphen, empty when
there is none. -/
def idPfx (id : String) : String :=
  if id.toList.contains (Char.ofNat 45) then String.mk (pfxChars id.toList) else ""

/-- Source Node value: the identifier together with its resolved graph
type. -/
structure Node where
  ID : String
  GraphType : GraphObject
deriving Repr, DecidableEq

/-- Source GetNode: look the identifier prefix up in the registry; on a
hit pair the identifier with the registered type, on a miss fail with the
unknown-prefix error. -/
def Resolver.GetNode (r : Resolver) (id : String) : Except String Node :=
  match lookupA r.pfxMap (idPfx id) with
  | some resType => Except.ok { ID := id, GraphType := resType }
  | none => Except.error "invalid id; unknown prefix"

/-- Source Entity value: the declared typename and the identifier taken
from one representation. -/
structure Entity where
  typeName : String
  ID : String
deriving Repr, DecidableEq

/-- Dynamic JSON-like values as they arrive in the representations
argument (Go interface-typed values). -/
inductive AnyValue where
  | str (s : String)
  | num (n : Int)
  | boolean (b : Bool)
  | nullv
  | obj (fields : List (String × AnyValue))

/-- Go type assertion to map-of-string: succeeds only on an object. -/
def asObj : AnyValue → Option (List (String × AnyValue))
  | AnyValue.obj fields => some fields
  | _ => none

/-- Go type assertion to string: succeeds only on a string. -/
def asString : AnyValue → Option String
  | AnyValue.str s => some s
  | _ => none

/-- Read a field of a representation and assert it is a string; a missing
key yields the nil interface value, whose string assertion fails. -/
def getStringField (fields : List (String × AnyValue)) (k : String) : Option String :=
  match lookupA fields k with
  | some v => asString v
  | none => none

/-- Conversion of one representation inside the entitiesResolver loop:
assert it is a map, assert its id and __typename fields are strings, and
build the Entity; none models the panic of a failed type assertion. -/
def parseRep (rep : AnyValue) : Option Entity :=
  match asObj rep with
  | none => none
  | some re =>
    match getStringField re "id" with
    | none => none
    | some id =>
      match getStringField re "__typename" with
      | none => none
      | some typename => some { typeName := typename, ID := id }

/-- Source entitiesResolver: convert each representation in order; any
failed assertion panics, so the whole call yields no batch (none). -/
def entitiesResolver (reps : List AnyValue) : Option (List Entity) :=
  match reps with
  | [] => some []
  | rep :: rest =>
    match parseRep rep with
    | none => none
    | some e =>
      match entitiesResolver rest with
      | none => none
      | some es => some (e :: es)

/-- Schema.IsPossibleType of the compiled schema, at the arguments the
entity resolver passes it: the object (always registered in the schema
via GraphTypes) is a possible type of the interface exactly when it
declares that interface. -/
def Resolver.isPossibleType (_r : Resolver) (abstract : GraphInterface) (possible : GraphObject) : Bool :=
  possible.interfaceNames.contains abstract.name

/-- Source entityTypeResolver: check the declared typename against the
interface map, then the identifier prefix against the registry, then the
possible-type relation; each failure panics with its formatted message
(modelled as Except.error), success returns the registered object. -/
def Resolver.entityTypeResolver (r : Resolver) (entity : Entity) : Except String GraphObject :=
  match lookupA r.interfaceMap entity.typeName with
  | none => Except.error (entity.typeName ++ " is an unknown interface type")
  | some graphType =>
    match lookupA r.pfxMap (idPfx entity.ID) with
    | none => Except.error (idPfx entity.ID ++ " is an unknown id prefix")
    | some objType =>
      if r.isPossibleType graphType objType then Except.ok objType
      else Except.error (objType.name ++ " doesn" ++ apos ++ "t implement interface " ++ graphType.name)

/-- Per-item resolution of a converted batch: the executor applies the
union ResolveType callback (entityTypeResolver) to each entity
independently, recording an error at the position of each failed item. -/
def Resolver.resolveEntities (r : Resolver) (entities : List Entity) : List (Except String GraphObject) :=
  entities.map r.entityTypeResolver

/-- Substring containment on strings, used to state the error-message
claims. -/
def containsStr (s pat : String) : Prop :=
  List.IsInfix pat.toList s.toList

/-- Representation literal with string __typename and id fields, the
well-formed shape the federation gateway sends. -/
def mkRep (tn id : String) : AnyValue :=
  AnyValue.obj [("__typename", AnyValue.str tn), ("id", AnyValue.str id)]

/-- Invariant of the interface map: every stored descriptor carries the
name it is keyed under. -/
def wellNamedIM (im : List (String × GraphInterface)) : Prop :=
  ∀ k gi, lookupA im k = some gi → gi.name = k

/-! Concrete schema fixtures mirroring the repository test schemas, used
by the witness theorems. -/

/-- Type Server implementing Node with prefixedID value testsrv. -/
def serverDef : Definition :=
  { name := "Server", interfaces := ["Node"],
    directives := [{ name := "prefixedID",
                     arguments := [{ name := "prefix", rawValue := "\"testsrv\"" }] }] }

/-- Type User implementing Node with prefixedID value testusr. -/
def userDef : Definition :=
  { name := "User", interfaces := ["Node"],
    directives := [{ name := "prefixedID",
                     arguments := [{ name := "prefix", rawValue := "\"testusr\"" }] }] }

/-- A definition implementing Node with no prefixedID directive at all. -/
def nodeOnlyDef : Definition :=
  { name := "Location", interfaces := ["Node"], directives := [] }

/-- A definition implementing only the Entity interface, registered under
value wdgt. -/
def thingDef : Definition :=
  { name := "Widget", interfaces := ["Entity"],
    directives := [{ name := "prefixedID",
                     arguments := [{ name := "prefix", rawValue := "\"wdgt\"" }] }] }

/-- A second definition registering the same value testsrv as serverDef. -/
def serverDupDef : Definition :=
  { name := "ServerV2", interfaces := ["Node"],
    directives := [{ name := "prefixedID",
                     arguments := [{ name := "prefix", rawValue := "\"testsrv\"" }] }] }

/-- The object registered for value testsrv by serverDef. -/
def serverObj : GraphObject :=
  { name := "Server", pfx := "testsrv", interfaceNames := ["Node"] }

/-- The object registered for value testusr by userDef. -/
def userObj : GraphObject :=
  { name := "User", pfx := "testusr", interfaceNames := ["Node"] }

/-- The two-type test document. -/
def testDoc : List Definition := [serverDef, userDef]

/-- The resolver built from the two-type test document. -/
def rTest : Resolver :=
  { pfxMap := (scanDoc testDoc).pfxMap, interfaceMap := (scanDoc testDoc).interfaceMap }

/-! Basic lemmas about the association-list maps. -/

theorem lookupA_insertA {α : Type} (m : List (String × α)) (k k' : String) (v : α) :
    lookupA (insertA m k v) k' = if k = k' then some v else lookupA m k' := by
  induction m with
  | nil => simp [insertA, lookupA]
  | cons kv rest ih =>
    by_cases h1 : kv.1 = k
    · simp only [insertA, if_pos h1, lookupA]
      by_cases h2 : k = k' <;> simp [h1, h2]
    · simp only [insertA, if_neg h1, lookupA, ih]
      by_cases h2 : kv.1 = k'
      · have hk : ¬ k = k' := fun he => h1 (by rw [he, h2])
        simp [h2, hk]
      · simp [h2]

theorem lookupA_ne_nil {α : Type} {m : List (String × α)} {k : String} {v : α}
    (h : lookupA m k = some v) : m.isEmpty = false := by
  cases m with
  | nil => simp [lookupA] at h
  | cons kv rest => rfl

/-! Lemmas about interface memoization. -/

theorem wellNamedIM_nil : wellNamedIM [] := by
  intro k gi hk
  simp [lookupA] at hk

theorem wellNamedIM_insert {im : List (String × GraphInterface)} (h : wellNamedIM im)
    (i : String) : wellNamedIM (insertA im i (graphInterfaceFor i)) := by
  intro k gi hk
  rw [lookupA_insertA] at hk
  by_cases he : i = k
  · rw [if_pos he] at hk
    have hg : graphInterfaceFor i = gi := by injection hk
    rw [← hg, ← he]
    rfl
  · rw [if_neg he] at hk
    exact h k gi hk

theorem memoize_wellNamed {im : List (String × GraphInterface)} (h : wellNamedIM im)
    (names : List String) : wellNamedIM (memoizeInterfaces im names).1 := by
  induction names generalizing im with
  | nil => exact h
  | cons i rest ih =>
    simp only [memoizeInterfaces]
    cases hl : lookupA im i with
    | some gi => exact ih h
    | none => exact ih (wellNamedIM_insert h i)

theorem memoize_names {im : List (String × GraphInterface)} (h : wellNamedIM im)
    (names : List String) :
    ((memoizeInterfaces im names).2).map (fun gi => gi.name) = names := by
  induction names generalizing im with
  | nil => rfl
  | cons i rest ih =>
    simp only [memoizeInterfaces]
    cases hl : lookupA im i with
    | some gi => simp [ih h, h i gi hl]
    | none =>
      simp only [List.map_cons]
      rw [ih (wellNamedIM_insert h i)]
      rfl

theorem memoize_mono {im : List (String × GraphInterface)} (names : List String) (n : String)
    (h : (lookupA im n).isSome = true) :
    (lookupA (memoizeInterfaces im names).1 n).isSome = true := by
  induction names generalizing im with
  | nil => exact h
  | cons i rest ih =>
    simp only [memoizeInterfaces]
    cases hl : lookupA im i with
    | some gi => exact ih h
    | none =>
      apply ih
      rw [lookupA_insertA]
      by_cases he : i = n
      · simp [he]
      · simp only [if_neg he]
        exact h

theorem memoize_mem {im : List (String × GraphInterface)} (names : List String) (n : String)
    (h : n ∈ names) : (lookupA (memoizeInterfaces im names).1 n).isSome = true := by
  induction names generalizing im with
  | nil => cases h
  | cons i rest ih =>
    simp only [memoizeInterfaces]
    cases hl : lookupA im i with
    | some gi =>
      rcases List.mem_cons.mp h with he | hr
      · subst he
        exact memoize_mono rest n (by simp [hl])
      · exact ih hr
    | none =>
      rcases List.mem_cons.mp h with he | hr
      · subst he
        apply memoize_mono
        rw [lookupA_insertA]
        simp
      · exact ih hr

theorem memoize_not_mem {im : List (String × GraphInterface)} (names : List String) (n : String)
    (h : n ∉ names) :
    lookupA (memoizeInterfaces im names).1 n = lookupA im n := by
  induction names generalizing im with
  | nil => rfl
  | cons i rest ih =>
    have hi : n ≠ i := fun he => h (he ▸ List.mem_cons_self i rest)
    have hr : n ∉ rest := fun hm => h (List.mem_cons_of_mem i hm)
    simp only [memoizeInterfaces]
    cases hl : lookupA im i with
    | some gi => exact ih hr
    | none =>
      rw [ih hr, lookupA_insertA, if_neg (fun he => hi he.symm)]

/-! Lemmas about one scanning step. -/

theorem stepDef_pfxMap_lookup (st : ScanState) (d : Definition) (q : String)
    (h : wellNamedIM st.interfaceMap) :
    lookupA (stepDef st d).pfxMap q =
      if pfxOf d = some q then some (objFor d q) else lookupA st.pfxMap q := by
  by_cases h1 : d.interfaces.isEmpty
  · simp [stepDef, pfxOf, h1]
  · cases hd : directiveForName d.directives "prefixedID" with
    | none => simp [stepDef, pfxOf, h1, hd]
    | some pd =>
      cases ha : argumentForName pd.arguments "prefix" with
      | none => simp [stepDef, pfxOf, h1, hd, ha]
      | some pa =>
        simp only [stepDef, pfxOf, h1, hd, ha, Bool.false_eq_true, if_false]
        rw [lookupA_insertA]
        by_cases he : trimQuotes pa.rawValue = q
        · rw [if_pos he, if_pos (by rw [he]), he]
          have hn : ((memoizeInterfaces st.interfaceMap d.interfaces).2).map
              (fun gi => gi.name) = d.interfaces := memoize_names h d.interfaces
          simp [graphTypeFor, objFor, hn]
        · rw [if_neg he, if_neg (fun hc => he (by injection hc))]

theorem stepDef_pfxMap_keep (st : ScanState) (d : Definition) (q : String)
    (h : pfxOf d ≠ some q) :
    lookupA (stepDef st d).pfxMap q = lookupA st.pfxMap q := by
  by_cases h1 : d.interfaces.isEmpty
  · simp [stepDef, h1]
  · cases hd : directiveForName d.directives "prefixedID" with
    | none => simp [stepDef, h1, hd]
    | some pd =>
      cases ha : argumentForName pd.arguments "prefix" with
      | none => simp [stepDef, h1, hd, ha]
      | some pa =>
        have hne : trimQuotes pa.rawValue ≠ q := by
          intro he
          exact h (by simp [pfxOf, h1, hd, ha, he])
        simp only [stepDef, h1, hd, ha, Bool.false_eq_true, if_false]
        rw [lookupA_insertA, if_neg hne]

theorem stepDef_pfxMap_skip (st : ScanState) (d : Definition) (h : pfxOf d = none) :
    (stepDef st d).pfxMap = st.pfxMap := by
  by_cases h1 : d.interfaces.isEmpty
  · simp [stepDef, h1]
  · cases hd : directiveForName d.directives "prefixedID" with
    | none => simp [stepDef, h1, hd]
    | some pd =>
      cases ha : argumentForName pd.arguments "prefix" with
      | none => simp [stepDef, h1, hd, ha]
      | some pa => simp [pfxOf, h1, hd, ha] at h

theorem stepDef_warnings_register (st : ScanState) (d : Definition) (p : String)
    (h : pfxOf d = some p) :
    (stepDef st d).warnings = st.warnings := by
  by_cases h1 : d.interfaces.isEmpty
  · simp [pfxOf, h1] at h
  · cases hd : directiveForName d.directives "prefixedID" with
    | none => simp [pfxOf, h1, hd] at h
    | some pd =>
      cases ha : argumentForName pd.arguments "prefix" with
      | none => simp [pfxOf, h1, hd, ha] at h
      | some pa => simp [stepDef, h1, hd, ha]

theorem stepDef_wellNamed (st : ScanState) (d : Definition)
    (h : wellNamedIM st.interfaceMap) : wellNamedIM (stepDef st d).interfaceMap := by
  by_cases h1 : d.interfaces.isEmpty
  · simpa [stepDef, h1] using h
  · cases hd : directiveForName d.directives "prefixedID" with
    | none => simpa [stepDef, h1, hd] using memoize_wellNamed h d.interfaces
    | some pd =>
      cases ha : argumentForName pd.arguments "prefix" with
      | none => simpa [stepDef, h1, hd, ha] using memoize_wellNamed h d.interfaces
      | some pa => simpa [stepDef, h1, hd, ha] using memoize_wellNamed h d.interfaces

theorem stepDef_im_mono (st : ScanState) (d : Definition) (n : String)
    (h : (lookupA st.interfaceMap n).isSome = true) :
    (lookupA (stepDef st d).interfaceMap n).isSome = true := by
  by_cases h1 : d.interfaces.isEmpty
  · simpa [stepDef, h1] using h
  · cases hd : directiveForName d.directives "prefixedID" with
    | none => simpa [stepDef, h1, hd] using memoize_mono d.interfaces n h
    | some pd =>
      cases ha : argumentForName pd.arguments "prefix" with
      | none => simpa [stepDef, h1, hd, ha] using memoize_mono d.interfaces n h
      | some pa => simpa [stepDef, h1, hd, ha] using memoize_mono d.interfaces n h

theorem stepDef_im_mem (st : ScanState) (d : Definition) (n : String)
    (h : n ∈ d.interfaces) :
    (lookupA (stepDef st d).interfaceMap n).isSome = true := by
  have h1 : ¬ d.interfaces.isEmpty := by
    cases hi : d.interfaces with
    | nil => rw [hi] at h; cases h
    | cons a l => simp [hi]
  cases hd : directiveForName d.directives "prefixedID" with
  | none => simpa [stepDef, h1, hd] using memoize_mem d.interfaces n h
  | some pd =>
    cases ha : argumentForName pd.arguments "prefix" with
    | none => simpa [stepDef, h1, hd, ha] using memoize_mem d.interfaces n h
    | some pa => simpa [stepDef, h1, hd, ha] using memoize_mem d.interfaces n h

theorem stepDef_im_not_mem (st : ScanState) (d : Definition) (n : String)
    (h : n ∉ d.interfaces) :
    lookupA (stepDef st d).interfaceMap n = lookupA st.interfaceMap n := by
  by_cases h1 : d.interfaces.isEmpty
  · simp [stepDef, h1]
  · cases hd : directiveForName d.directives "prefixedID" with
    | none => simpa [stepDef, h1, hd] using memoize_not_mem d.interfaces n h
    | some pd =>
      cases ha : argumentForName pd.arguments "prefix" with
      | none => simpa [stepDef, h1, hd, ha] using memoize_not_mem d.interfaces n h
      | some pa => simpa [stepDef, h1, hd, ha] using memoize_not_mem d.interfaces n h

/-! Lemmas about scanning a whole document. -/

theorem foldl_wellNamed (defs : List Definition) (st : ScanState)
    (h : wellNamedIM st.interfaceMap) :
    wellNamedIM (defs.foldl stepDef st).interfaceMap := by
  induction defs generalizing st with
  | nil => exact h
  | cons d rest ih => exact ih (stepDef st d) (stepDef_wellNamed st d h)

theorem foldl_pfxMap_none (defs : List Definition) (st : ScanState)
    (h : ∀ d ∈ defs, pfxOf d = none) :
    (defs.foldl stepDef st).pfxMap = st.pfxMap := by
  induction defs generalizing st with
  | nil => rfl
  | cons d rest ih =>
    rw [List.foldl_cons, ih (stepDef st d) (fun d2 h2 => h d2 (List.mem_cons_of_mem d h2)),
      stepDef_pfxMap_skip st d (h d (List.mem_cons_self d rest))]

theorem foldl_pfxMap_keep (defs : List Definition) (st : ScanState) (q : String)
    (h : ∀ d ∈ defs, pfxOf d ≠ some q) :
    lookupA (defs.foldl stepDef st).pfxMap q = lookupA st.pfxMap q := by
  induction defs generalizing st with
  | nil => rfl
  | cons d rest ih =>
    rw [List.foldl_cons, ih (stepDef st d) (fun d2 h2 => h d2 (List.mem_cons_of_mem d h2)),
      stepDef_pfxMap_keep st d q (h d (List.mem_cons_self d rest))]

theorem foldl_im_mono (defs : List Definition) (st : ScanState) (n : String)
    (h : (lookupA st.interfaceMap n).isSome = true) :
    (lookupA (defs.foldl stepDef st).interfaceMap n).isSome = true := by
  induction defs generalizing st with
  | nil => exact h
  | cons d rest ih => exact ih (stepDef st d) (stepDef_im_mono st d n h)

theorem foldl_im_not_mem (defs : List Definition) (st : ScanState) (n : String)
    (h : ∀ d ∈ defs, n ∉ d.interfaces) :
    lookupA (defs.foldl stepDef st).interfaceMap n = lookupA st.interfaceMap n := by
  induction defs generalizing st with
  | nil => rfl
  | cons d rest ih =>
    rw [List.foldl_cons, ih (stepDef st d) (fun d2 h2 => h d2 (List.mem_cons_of_mem d h2)),
      stepDef_im_not_mem st d n (h d (List.mem_cons_self d rest))]

theorem foldl_im_mem (defs : List Definition) (st : ScanState) (d : Definition) (n : String)
    (hd : d ∈ defs) (hn : n ∈ d.interfaces) :
    (lookupA (defs.foldl stepDef st).interfaceMap n).isSome = true := by
  induction defs generalizing st with
  | nil => cases hd
  | cons d0 rest ih =>
    rcases List.mem_cons.mp hd with he | hr
    · subst he
      exact foldl_im_mono rest (stepDef st d) n (stepDef_im_mem st d n hn)
    · exact ih (stepDef st d0) hr

theorem foldl_pfxMap_last (l₁ l₂ : List Definition) (st : ScanState) (d : Definition)
    (p : String) (hwn : wellNamedIM st.interfaceMap) (hd : pfxOf d = some p)
    (hl₂ : ∀ d2 ∈ l₂, pfxOf d2 ≠ some p) :
    lookupA ((l₁ ++ d :: l₂).foldl stepDef st).pfxMap p = some (objFor d p) := by
  rw [List.foldl_append, List.foldl_cons]
  rw [foldl_pfxMap_keep l₂ _ p hl₂]
  rw [stepDef_pfxMap_lookup _ d p (foldl_wellNamed l₁ st hwn), if_pos hd]

/-- A definition without interfaces, without the prefixedID directive, or
without its argument registers nothing. -/
theorem skip_imp_pfxOf_none (d : Definition)
    (h : d.interfaces = [] ∨ directiveForName d.directives "prefixedID" = none ∨
      (∀ pd, directiveForName d.directives "prefixedID" = some pd →
        argumentForName pd.arguments "prefix" = none)) :
    pfxOf d = none := by
  by_cases h1 : d.interfaces.isEmpty
  · simp [pfxOf, h1]
  · rcases h with h | h | h
    · rw [h] at h1
      simp at h1
    · simp [pfxOf, h1, h]
    · cases hd : directiveForName d.directives "prefixedID" with
      | none => simp [pfxOf, h1, hd]
      | some pd => simp [pfxOf, h1, hd, h pd hd]

/-! The claims. -/

/-- C1: for every prefix present in the prefix map and every identifier
whose extracted prefix equals it, GetNode returns a node with no error,
whose GraphType is exactly the registered object (hence the rendered type
name is the registered name) and whose ID is the input verbatim. -/
theorem C1_getNode_roundtrip (r : Resolver) (p id : String) (t : GraphObject)
    (hp : lookupA r.pfxMap p = some t) (hid : idPfx id = p) :
    r.GetNode id = Except.ok { ID := id, GraphType := t } := by
  unfold Resolver.GetNode
  rw [hid, hp]

/-- Witness for C1 at the test registry and the identifier testsrv-123. -/
theorem C1_witness :
    lookupA rTest.pfxMap "testsrv" = some serverObj ∧ idPfx "testsrv-123" = "testsrv" ∧
    rTest.GetNode "testsrv-123" = Except.ok { ID := "testsrv-123", GraphType := serverObj } :=
  ⟨rfl, rfl, C1_getNode_roundtrip rTest "testsrv" "testsrv-123" serverObj rfl rfl⟩

/-- C2: for every identifier whose prefix is absent from the prefix map,
GetNode returns no node and exactly the one unknown-prefix error, whose
message contains the text "unknown prefix"; no other outcome is
possible. -/
theorem C2_getNode_unknown (r : Resolver) (id : String)
    (h : lookupA r.pfxMap (idPfx id) = none) :
    r.GetNode id = Except.error "invalid id; unknown prefix" ∧
    containsStr "invalid id; unknown prefix" "unknown prefix" := by
  constructor
  · unfold Resolver.GetNode
    rw [h]
  · exact ⟨"invalid id; ".toList, [], by decide⟩

/-- Witness for C2 at the test registry and the identifier notreal-987. -/
theorem C2_witness :
    lookupA rTest.pfxMap (idPfx "notreal-987") = none ∧
    rTest.GetNode "notreal-987" = Except.error "invalid id; unknown prefix" :=
  ⟨rfl, (C2_getNode_unknown rTest "notreal-987" rfl).1⟩

/-- C3: for every batch of N well-formed representations the entities
resolver returns a batch of exactly N entities, and the entity at each
position carries the typename and id of the representation at the same
position, independently of any later per-item resolution outcome. -/
theorem C3_entities_order (l : List (String × String)) :
    entitiesResolver (l.map (fun x => mkRep x.1 x.2)) =
      some (l.map (fun x => { typeName := x.1, ID := x.2 })) ∧
    (l.map (fun x => ({ typeName := x.1, ID := x.2 } : Entity))).length = l.length ∧
    ∀ i : Nat, (l.map (fun x => ({ typeName := x.1, ID := x.2 } : Entity)))[i]? =
      l[i]?.map (fun x => { typeName := x.1, ID := x.2 }) := by
  refine ⟨?_, by simp, fun i => List.getElem?_map _ _ _⟩
  induction l with
  | nil => rfl
  | cons x rest ih =>
    simp only [List.map_cons, entitiesResolver]
    rw [show parseRep (mkRep x.1 x.2) = some { typeName := x.1, ID := x.2 } from rfl, ih]

/-- C4: the entity type resolver performs its checks in a fixed order
with the exact source messages: unknown interface name first, unknown id
prefix second, possible-type violation third, and otherwise succeeds with
exactly the registered object. -/
theorem C4_entityTypeResolver_cases (r : Resolver) (e : Entity) :
    (lookupA r.interfaceMap e.typeName = none →
      r.entityTypeResolver e = Except.error (e.typeName ++ " is an unknown interface type")) ∧
    (∀ gi, lookupA r.interfaceMap e.typeName = some gi →
      lookupA r.pfxMap (idPfx e.ID) = none →
      r.entityTypeResolver e = Except.error (idPfx e.ID ++ " is an unknown id prefix")) ∧
    (∀ gi obj, lookupA r.interfaceMap e.typeName = some gi →
      lookupA r.pfxMap (idPfx e.ID) = some obj →
      obj.interfaceNames.contains gi.name = false →
      r.entityTypeResolver e =
        Except.error (obj.name ++ " doesn" ++ apos ++ "t implement interface " ++ gi.name)) ∧
    (∀ gi obj, lookupA r.interfaceMap e.typeName = some gi →
      lookupA r.pfxMap (idPfx e.ID) = some obj →
      obj.interfaceNames.contains gi.name = true →
      r.entityTypeResolver e = Except.ok obj) := by
  refine ⟨fun h1 => ?_, fun gi h1 h2 => ?_, fun gi obj h1 h2 h3 => ?_, fun gi obj h1 h2 h3 => ?_⟩
  · simp [Resolver.entityTypeResolver, h1]
  · simp [Resolver.entityTypeResolver, h1, h2]
  · simp only [Resolver.entityTypeResolver, h1, h2, Resolver.isPossibleType, h3,
      Bool.false_eq_true, if_false]
  · simp only [Resolver.entityTypeResolver, h1, h2, Resolver.isPossibleType, h3, if_true]

/-- Witness for C4: a success and an unknown-interface failure at the
test registry. -/
theorem C4_witness :
    rTest.entityTypeResolver { typeName := "Node", ID := "testsrv-1" } = Except.ok serverObj ∧
    rTest.entityTypeResolver { typeName := "Ghost", ID := "testsrv-1" } =
      Except.error ("Ghost" ++ " is an unknown interface type") :=
  ⟨(C4_entityTypeResolver_cases rTest { typeName := "Node", ID := "testsrv-1" }).2.2.2
      (graphInterfaceFor "Node") serverObj rfl rfl rfl,
   (C4_entityTypeResolver_cases rTest { typeName := "Ghost", ID := "testsrv-1" }).1 rfl⟩

/-- C5: batch resolution is per item: the output has the length of the
input, and the outcome at every position is exactly the type resolution
of the entity at that position, unaffected by the other items. -/
theorem C5_batch_isolation (r : Resolver) (es : List Entity) :
    (r.resolveEntities es).length = es.length ∧
    ∀ i : Nat, (r.resolveEntities es)[i]? = es[i]?.map r.entityTypeResolver :=
  ⟨by simp [Resolver.resolveEntities], fun i => List.getElem?_map _ _ _⟩

/-- C6: when every definition declares no interfaces, lacks the
prefixedID directive, or lacks its argument, NewResolver fails with the
empty-registry schema-validation error, whose message contains the text
"no valid", and returns no resolver. -/
theorem C6_empty_registry_fails (defs : List Definition)
    (h : ∀ d ∈ defs, d.interfaces = [] ∨ directiveForName d.directives "prefixedID" = none ∨
      (∀ pd, directiveForName d.directives "prefixedID" = some pd →
        argumentForName pd.arguments "prefix" = none)) :
    NewResolver defs = Except.error "schema has no valid objet types" ∧
    containsStr "schema has no valid objet types" "no valid" := by
  constructor
  · have hempty : (scanDoc defs).pfxMap = [] :=
      foldl_pfxMap_none defs _ (fun d hd => skip_imp_pfxOf_none d (h d hd))
    simp [NewResolver, hempty]
  · exact ⟨"schema has ".toList, " objet types".toList, by decide⟩

/-- Witness for C6 at a one-definition document with no directive. -/
theorem C6_witness :
    NewResolver [nodeOnlyDef] = Except.error "schema has no valid objet types" :=
  (C6_empty_registry_fails [nodeOnlyDef] (by decide)).1

/-- C7: when no scanned definition implements an interface named Node,
building the Query root fails with the missing-Node error, whose message
contains the text "missing from schema", and NewResolver returns no
resolver. -/
theorem C7_missing_node_interface (defs : List Definition)
    (h : ∀ d ∈ defs, "Node" ∉ d.interfaces) :
    queryRoot (scanDoc defs).interfaceMap =
      Except.error "interface for Node missing from schema" ∧
    containsStr "interface for Node missing from schema" "missing from schema" ∧
    ∀ r : Resolver, NewResolver defs ≠ Except.ok r := by
  have hn : lookupA (scanDoc defs).interfaceMap "Node" = none := by
    unfold scanDoc
    rw [foldl_im_not_mem defs _ "Node" h]
    rfl
  refine ⟨by simp [queryRoot, hn], ⟨"interface for Node ".toList, [], by decide⟩, ?_⟩
  intro r hr
  by_cases he : (scanDoc defs).pfxMap.isEmpty
  · simp [NewResolver, he] at hr
  · simp [NewResolver, he, queryRoot, hn] at hr

/-- Witness for C7 at a one-definition document whose only interface is
Entity. -/
theorem C7_witness :
    queryRoot (scanDoc [thingDef]).interfaceMap =
      Except.error "interface for Node missing from schema" :=
  (C7_missing_node_interface [thingDef] (by decide)).1

/-- C8: a definition with interfaces but without the prefixedID directive
or its argument is skipped, registering nothing, yet all interfaces it
implements are memoized in the interface map; in particular a skipped
definition can be the one satisfying the Node requirement. -/
theorem C8_skip_still_memoizes (st : ScanState) (d : Definition) (defs : List Definition)
    (hne : d.interfaces ≠ [])
    (hskip : directiveForName d.directives "prefixedID" = none ∨
      (∀ pd, directiveForName d.directives "prefixedID" = some pd →
        argumentForName pd.arguments "prefix" = none)) :
    (stepDef st d).pfxMap = st.pfxMap ∧
    (∀ n ∈ d.interfaces, (lookupA (stepDef st d).interfaceMap n).isSome = true) ∧
    (d ∈ defs → "Node" ∈ d.interfaces →
      (lookupA (scanDoc defs).interfaceMap "Node").isSome = true) := by
  have hp : pfxOf d = none := skip_imp_pfxOf_none d (Or.inr hskip)
  exact ⟨stepDef_pfxMap_skip st d hp, fun n hn => stepDef_im_mem st d n hn,
    fun hd hn => foldl_im_mem defs _ d "Node" hd hn⟩

/-- Witness for C8: the skipped Location definition registers nothing but
its Node interface is memoized; the schema with only Widget carrying a
directive still builds because the skipped definition supplies Node. -/
theorem C8_witness :
    (stepDef { pfxMap := [], interfaceMap := [], warnings := [] } nodeOnlyDef).pfxMap = [] ∧
    (lookupA (scanDoc [nodeOnlyDef, thingDef]).interfaceMap "Node").isSome = true ∧
    NewResolver [nodeOnlyDef, thingDef] =
      Except.ok { pfxMap := [("wdgt", { name := "Widget", pfx := "wdgt",
                                        interfaceNames := ["Entity"] })],
                  interfaceMap := [("Node", { name := "Node" }),
                                   ("Entity", { name := "Entity" })] } :=
  ⟨(C8_skip_still_memoizes { pfxMap := [], interfaceMap := [], warnings := [] } nodeOnlyDef
      [nodeOnlyDef, thingDef] (by decide) (Or.inl rfl)).1,
   (C8_skip_still_memoizes { pfxMap := [], interfaceMap := [], warnings := [] } nodeOnlyDef
      [nodeOnlyDef, thingDef] (by decide) (Or.inl rfl)).2.2 (by decide) (by decide),
   rfl⟩

/-- C9: when two definitions register the same prefix value, NewResolver
still succeeds (given a nonmissing Node interface) and the registry maps
the value to the object of the definition scanned last in document order,
with no warning logged by the registering step and no error. -/
theorem C9_duplicate_pfx_last_wins (l₀ l₁ l₂ : List Definition) (d₁ d₂ : Definition)
    (p : String) (h₁ : pfxOf d₁ = some p) (h₂ : pfxOf d₂ = some p)
    (hlast : ∀ d ∈ l₂, pfxOf d ≠ some p)
    (hNode : (lookupA (scanDoc (l₀ ++ d₁ :: (l₁ ++ d₂ :: l₂))).interfaceMap "Node").isSome
      = true) :
    (∃ r : Resolver, NewResolver (l₀ ++ d₁ :: (l₁ ++ d₂ :: l₂)) = Except.ok r ∧
      lookupA r.pfxMap p = some (objFor d₂ p)) ∧
    (∀ st : ScanState, (stepDef st d₂).warnings = st.warnings) := by
  have hassoc : l₀ ++ d₁ :: (l₁ ++ d₂ :: l₂) = (l₀ ++ d₁ :: l₁) ++ d₂ :: l₂ := by simp
  have hlook : lookupA (scanDoc (l₀ ++ d₁ :: (l₁ ++ d₂ :: l₂))).pfxMap p
      = some (objFor d₂ p) := by
    rw [hassoc]
    exact foldl_pfxMap_last (l₀ ++ d₁ :: l₁) l₂ _ d₂ p wellNamedIM_nil h₂ hlast
  have hne : (scanDoc (l₀ ++ d₁ :: (l₁ ++ d₂ :: l₂))).pfxMap.isEmpty = false :=
    lookupA_ne_nil hlook
  refine ⟨⟨{ pfxMap := (scanDoc (l₀ ++ d₁ :: (l₁ ++ d₂ :: l₂))).pfxMap,
             interfaceMap := (scanDoc (l₀ ++ d₁ :: (l₁ ++ d₂ :: l₂))).interfaceMap }, ?_, hlook⟩,
    fun st => stepDef_warnings_register st d₂ p h₂⟩
  cases hl : lookupA (scanDoc (l₀ ++ d₁ :: (l₁ ++ d₂ :: l₂))).interfaceMap "Node" with
  | none => rw [hl] at hNode; simp at hNode
  | some ni => simp [NewResolver, hne, queryRoot, hl]

/-- Witness for C9: Server and ServerV2 both register testsrv; the
registry ends up holding the ServerV2 object. -/
theorem C9_witness :
    (∃ r : Resolver, NewResolver [serverDef, serverDupDef] = Except.ok r ∧
      lookupA r.pfxMap "testsrv" = some (objFor serverDupDef "testsrv")) ∧
    (stepDef { pfxMap := [], interfaceMap := [], warnings := [] } serverDupDef).warnings = [] :=
  ⟨(C9_duplicate_pfx_last_wins [] [] [] serverDef serverDupDef "testsrv" rfl rfl
      (by decide) (by decide)).1,
   (C9_duplicate_pfx_last_wins [] [] [] serverDef serverDupDef "testsrv" rfl rfl
      (by decide) (by decide)).2 { pfxMap := [], interfaceMap := [], warnings := [] }⟩

/-- C10: the entities resolver trusts its input shape: any representation
that is not a map of strings at the id and __typename keys makes the
whole call panic (modelled as none) instead of a per-item null plus
error, and a well-formed id string is wrapped verbatim with no syntactic
validation. -/
theorem C10_unchecked_assertions :
    (∀ (reps : List AnyValue) (rep : AnyValue), rep ∈ reps → parseRep rep = none →
      entitiesResolver reps = none) ∧
    (∀ rep : AnyValue, asObj rep = none → parseRep rep = none) ∧
    (∀ fields : List (String × AnyValue),
      getStringField fields "id" = none ∨ getStringField fields "__typename" = none →
      parseRep (AnyValue.obj fields) = none) ∧
    (∀ tn id : String, entitiesResolver [mkRep tn id] = some [{ typeName := tn, ID := id }]) := by
  refine ⟨?_, ?_, ?_, fun tn id => rfl⟩
  · intro reps rep hmem hnone
    induction reps with
    | nil => cases hmem
    | cons r0 rest ih =>
      rcases List.mem_cons.mp hmem with he | hr
      · subst he
        simp [entitiesResolver, hnone]
      · simp only [entitiesResolver]
        cases hp : parseRep r0 with
        | none => rfl
        | some e => rw [ih hr]
  · intro rep h
    simp [parseRep, h]
  · intro fields h
    rcases h with h | h
    · simp [parseRep, asObj, h]
    · cases hid : getStringField fields "id" with
      | none => simp [parseRep, asObj, hid]
      | some i => simp [parseRep, asObj, hid, h]

/-- Witness for C10: a string representation panics the whole batch, and
an id with an unregistered shape is accepted verbatim. -/
theorem C10_witness :
    entitiesResolver [AnyValue.str "oops"] = none ∧
    entitiesResolver [mkRep "Node" "nohyphenatall"] =
      some [{ typeName := "Node", ID := "nohyphenatall" }] :=
  ⟨C10_unchecked_assertions.1 [AnyValue.str "oops"] (AnyValue.str "oops") (by simp) rfl,
   C10_unchecked_assertions.2.2.2 "Node" "nohyphenatall"⟩

end NodeResolver
